import Mathlib

/-!
Verification development for `rechner.py`, a sandboxed arithmetic-expression
evaluator.  The Python module parses an expression with the host parser
(`ast.parse(expr, mode="eval")`), walks the resulting tree to reject any node
kind outside a fixed whitelist, and then evaluates the tree recursively
against whitelisted operator, function and constant tables.

Modelling conventions, used throughout:

* CPython machine floats are modelled by `PyFloat`: an exact rational or one
  of `inf`, `-inf`, `nan`.  IEEE-754 rounding is not modelled; every float
  computation inspected by a theorem below is exact at this granularity.
  The real-valued output of transcendental functions (`sin`, `exp`, ...) is
  not inspected by any theorem and is represented by the explicit
  placeholder `unmodeledReal`; the domain checking (which inputs raise) is
  modelled faithfully.
* Python exceptions are modelled by `PyError`, one constructor per concrete
  exception class the module can raise.  `EvalError` is the class defined by
  the module itself (a `ValueError` subclass); `valueError` stands for a
  plain `ValueError` instance raised inside `math.*` functions (such an
  instance is not an `EvalError` instance); the remaining constructors are
  other builtins (`TypeError`, `ZeroDivisionError`, `OverflowError`).
* The host parser `ast.parse` is an external dependency (CPython), not code
  of this repository, so it is not re-implemented: `evaluate` takes the
  parse outcome as an explicit argument, and the known parse results of the
  concrete input strings exercised by the specification are recorded as
  named trees below, each with a comment citing the source string.
* `_eval_node` is embedded as `evalNodeFull`, instrumented in two ways that
  make its implicit behaviour provable: the caller-supplied variables dict
  (passed by reference in Python) is threaded through and returned, and a
  trace of every whitelist-table application is collected.  Stripping the
  threading and the trace yields exactly the recursion of `_eval_node`.
-/

namespace Rechner

/-- Model of a CPython float: an exact rational or a non-finite value. -/
inductive PyFloat
  | finite (q : ℚ)
  | inf
  | negInf
  | nan
deriving DecidableEq, BEq

/-- Negation of a float (`operator.neg` on a float operand). -/
def PyFloat.neg : PyFloat → PyFloat
  | .finite q => .finite (-q)
  | .inf => .negInf
  | .negInf => .inf
  | .nan => .nan

/-- Float addition with IEEE special-value propagation. -/
def PyFloat.add : PyFloat → PyFloat → PyFloat
  | .nan, _ => .nan
  | _, .nan => .nan
  | .inf, .negInf => .nan
  | .negInf, .inf => .nan
  | .inf, _ => .inf
  | _, .inf => .inf
  | .negInf, _ => .negInf
  | _, .negInf => .negInf
  | .finite p, .finite q => .finite (p + q)

/-- Float subtraction. -/
def PyFloat.sub (a b : PyFloat) : PyFloat := a.add b.neg

/-- Float multiplication with IEEE special-value propagation
(`inf * 0` is `nan`, otherwise signs combine). -/
def PyFloat.mul : PyFloat → PyFloat → PyFloat
  | .nan, _ => .nan
  | _, .nan => .nan
  | .inf, .inf => .inf
  | .inf, .negInf => .negInf
  | .negInf, .inf => .negInf
  | .negInf, .negInf => .inf
  | .inf, .finite q => if q = 0 then .nan else if 0 < q then .inf else .negInf
  | .finite q, .inf => if q = 0 then .nan else if 0 < q then .inf else .negInf
  | .negInf, .finite q => if q = 0 then .nan else if 0 < q then .negInf else .inf
  | .finite q, .negInf => if q = 0 then .nan else if 0 < q then .negInf else .inf
  | .finite p, .finite q => .finite (p * q)

/-- Float division.  A zero finite divisor is rejected by the callers before
this function is reached (CPython raises `ZeroDivisionError` there instead
of producing an IEEE infinity). -/
def PyFloat.div : PyFloat → PyFloat → PyFloat
  | .nan, _ => .nan
  | _, .nan => .nan
  | .inf, .inf => .nan
  | .inf, .negInf => .nan
  | .negInf, .inf => .nan
  | .negInf, .negInf => .nan
  | .finite _, .inf => .finite 0
  | .finite _, .negInf => .finite 0
  | .inf, .finite q => if 0 ≤ q then .inf else .negInf
  | .negInf, .finite q => if 0 ≤ q then .negInf else .inf
  | .finite p, .finite q => .finite (p / q)

/-- Float floor division (`float.__floordiv__`), floored convention.
A zero finite divisor is rejected by the callers. -/
def PyFloat.floorDivF : PyFloat → PyFloat → PyFloat
  | .nan, _ => .nan
  | _, .nan => .nan
  | .inf, _ => .nan
  | .negInf, _ => .nan
  | .finite p, .inf => if 0 ≤ p then .finite 0 else .finite (-1)
  | .finite p, .negInf => if p ≤ 0 then .finite 0 else .finite (-1)
  | .finite p, .finite q => .finite ((⌊p / q⌋ : ℤ) : ℚ)

/-- Float modulo (`float.__mod__`), floored convention: the remainder takes
the sign of the divisor.  A zero finite divisor is rejected by the callers. -/
def PyFloat.fmodF : PyFloat → PyFloat → PyFloat
  | .nan, _ => .nan
  | _, .nan => .nan
  | .inf, _ => .nan
  | .negInf, _ => .nan
  | .finite p, .inf => if 0 ≤ p then .finite p else .inf
  | .finite p, .negInf => if p ≤ 0 then .finite p else .negInf
  | .finite p, .finite q => .finite (p - q * ((⌊p / q⌋ : ℤ) : ℚ))

/-- Absolute value of a float (`math.fabs`). -/
def PyFloat.absF : PyFloat → PyFloat
  | .finite q => .finite |q|
  | .nan => .nan
  | .inf => .inf
  | .negInf => .inf

/-- Python exception classes observable from `rechner.evaluate`.
`evalError` is the module-defined `EvalError(ValueError)`; `valueError` is a
plain `ValueError` (raised by `math.*` domain checks; not an `EvalError`
instance); the rest are builtins that the module does not catch. -/
inductive PyError
  | evalError (msg : String)
  | typeError (msg : String)
  | valueError (msg : String)
  | zeroDivisionError (msg : String)
  | overflowError (msg : String)
deriving DecidableEq, BEq

/-- Runtime values of the evaluator: Python `int`, `float` or `complex`.
Python `bool` is an `int` subclass and is covered by the `int` case. -/
inductive PyVal
  | int (n : ℤ)
  | float (x : PyFloat)
  | complex (re im : PyFloat)
deriving DecidableEq, BEq

/-- Whether a value is a `complex` instance. -/
def PyVal.isComplexVal : PyVal → Bool
  | .complex _ _ => true
  | _ => false

/-- Coercion of a real (non-complex) value to a float, as the binary operators of Python do when one operand is a float. -/
def PyVal.asFloat : PyVal → Option PyFloat
  | .int n => some (.finite (n : ℚ))
  | .float x => some x
  | .complex _ _ => none

/-- Coercion of any numeric value to a complex pair. -/
def PyVal.toComplexPair : PyVal → PyFloat × PyFloat
  | .int n => (.finite (n : ℚ), .finite 0)
  | .float x => (x, .finite 0)
  | .complex r i => (r, i)

/-- Association-list lookup, modelling a Python dict lookup (keys unique). -/
def afind {κ β : Type} [DecidableEq κ] : List (κ × β) → κ → Option β
  | [], _ => none
  | (k, v) :: rest, key => if k = key then some v else afind rest key

/-- Placeholder for a real-valued transcendental result that no theorem in
this file inspects.  Only the domain behaviour (which inputs raise) of the
functions using it is modelled faithfully; their finite output value is not. -/
def unmodeledReal (_q : ℚ) : ℚ := 0

/-- Placeholder for a real-valued power `p ** q` with non-integral exponent;
as with `unmodeledReal`, no theorem inspects this value. -/
def unmodeledPow (_p _q : ℚ) : ℚ := 0

/-- Binary `+` (`operator.add`) over the numeric tower. -/
def pyAdd (a b : PyVal) : Except PyError PyVal :=
  match a, b with
  | .int m, .int n => .ok (.int (m + n))
  | _, _ =>
    if a.isComplexVal || b.isComplexVal then
      let p := a.toComplexPair
      let q := b.toComplexPair
      .ok (.complex (p.1.add q.1) (p.2.add q.2))
    else
      match a.asFloat, b.asFloat with
      | some x, some y => .ok (.float (x.add y))
      | _, _ => .error (.typeError ("unsupported operand type(s) for +"))

/-- Binary `-` (`operator.sub`). -/
def pySub (a b : PyVal) : Except PyError PyVal :=
  match a, b with
  | .int m, .int n => .ok (.int (m - n))
  | _, _ =>
    if a.isComplexVal || b.isComplexVal then
      let p := a.toComplexPair
      let q := b.toComplexPair
      .ok (.complex (p.1.sub q.1) (p.2.sub q.2))
    else
      match a.asFloat, b.asFloat with
      | some x, some y => .ok (.float (x.sub y))
      | _, _ => .error (.typeError ("unsupported operand type(s) for -"))

/-- Binary `*` (`operator.mul`). -/
def pyMul (a b : PyVal) : Except PyError PyVal :=
  match a, b with
  | .int m, .int n => .ok (.int (m * n))
  | _, _ =>
    if a.isComplexVal || b.isComplexVal then
      let p := a.toComplexPair
      let q := b.toComplexPair
      .ok (.complex ((p.1.mul q.1).sub (p.2.mul q.2)) ((p.1.mul q.2).add (p.2.mul q.1)))
    else
      match a.asFloat, b.asFloat with
      | some x, some y => .ok (.float (x.mul y))
      | _, _ => .error (.typeError ("unsupported operand type(s) for *"))

/-- Binary `/` (`operator.truediv`).  True division of two ints produces a
float; a zero right operand raises `ZeroDivisionError` (CPython message
"division by zero" for int operands, "float division by zero" for float
operands), never an IEEE infinity or NaN. -/
def pyDiv (a b : PyVal) : Except PyError PyVal :=
  if a.isComplexVal || b.isComplexVal then
    let p := a.toComplexPair
    let q := b.toComplexPair
    if q.1 = .finite 0 ∧ q.2 = .finite 0 then
      .error (.zeroDivisionError ("complex division by zero"))
    else
      let d := (q.1.mul q.1).add (q.2.mul q.2)
      .ok (.complex (((p.1.mul q.1).add (p.2.mul q.2)).div d)
                    (((p.2.mul q.1).sub (p.1.mul q.2)).div d))
  else
    match a, b with
    | .int m, .int n =>
      if n = 0 then .error (.zeroDivisionError ("division by zero"))
      else .ok (.float (.finite ((m : ℚ) / (n : ℚ))))
    | _, _ =>
      match a.asFloat, b.asFloat with
      | some x, some y =>
        if y = .finite 0 then .error (.zeroDivisionError ("float division by zero"))
        else .ok (.float (x.div y))
      | _, _ => .error (.typeError ("unsupported operand type(s) for /"))

/-- Binary `//` (`operator.floordiv`).  For ints this is CPython floor
division, `Int.fdiv` (quotient rounded toward minus infinity); complex
operands are a `TypeError`.  The exact `ZeroDivisionError` message text for
`//` and `%` varies across CPython versions; theorems below only rely on the
message for int true division, which is stable. -/
def pyFloorDiv (a b : PyVal) : Except PyError PyVal :=
  match a, b with
  | .int m, .int n =>
    if n = 0 then .error (.zeroDivisionError ("integer division or modulo by zero"))
    else .ok (.int (Int.fdiv m n))
  | _, _ =>
    if a.isComplexVal || b.isComplexVal then
      .error (.typeError ("unsupported operand type(s) for //"))
    else
      match a.asFloat, b.asFloat with
      | some x, some y =>
        if y = .finite 0 then .error (.zeroDivisionError ("float floor division by zero"))
        else .ok (.float (x.floorDivF y))
      | _, _ => .error (.typeError ("unsupported operand type(s) for //"))

/-- Binary `%` (`operator.mod`).  For ints this is CPython floored modulo,
`Int.fmod` (remainder takes the sign of the divisor); complex operands are a
`TypeError`. -/
def pyMod (a b : PyVal) : Except PyError PyVal :=
  match a, b with
  | .int m, .int n =>
    if n = 0 then .error (.zeroDivisionError ("integer division or modulo by zero"))
    else .ok (.int (Int.fmod m n))
  | _, _ =>
    if a.isComplexVal || b.isComplexVal then
      .error (.typeError ("unsupported operand type(s) for %"))
    else
      match a.asFloat, b.asFloat with
      | some x, some y =>
        if y = .finite 0 then .error (.zeroDivisionError ("float modulo"))
        else .ok (.float (x.fmodF y))
      | _, _ => .error (.typeError ("unsupported operand type(s) for %"))

/-- Float power (`float.__pow__`), used when at least one real operand is a
float.  the CPython handling of a negative base with a non-integral exponent
does not raise: it defers to complex power and returns a `complex` value;
only that outcome kind is modelled (its components are placeholders). -/
def PyFloat.powF : PyFloat → PyFloat → Except PyError PyVal
  | x, .finite q =>
    if q = 0 then .ok (.float (.finite 1))
    else
      match x with
      | .finite p =>
        if p = 1 then .ok (.float (.finite 1))
        else if p < 0 && !q.isInt then
          .ok (.complex (.finite (unmodeledPow p q)) (.finite (unmodeledPow q p)))
        else if p = 0 && q < 0 then
          .error (.zeroDivisionError ("0.0 cannot be raised to a negative power"))
        else if q.isInt then .ok (.float (.finite (p ^ q.num)))
        else .ok (.float (.finite (unmodeledPow p q)))
      | .nan => .ok (.float .nan)
      | .inf => .ok (.float (if 0 < q then .inf else .finite 0))
      | .negInf => .ok (.float (if 0 < q then .inf else .finite 0))
  | x, .nan => if x = .finite 1 then .ok (.float (.finite 1)) else .ok (.float .nan)
  | x, .inf => if x = .finite 1 then .ok (.float (.finite 1)) else .ok (.float .inf)
  | x, .negInf => if x = .finite 1 then .ok (.float (.finite 1)) else .ok (.float (.finite 0))

/-- Binary `**` (`operator.pow`).  Int base with non-negative int exponent
stays an int; a negative int exponent produces a float (`0` base raising
`ZeroDivisionError`); otherwise float power applies.  A complex operand
yields a complex result whose components are placeholders (no theorem
inspects them). -/
def pyPow (a b : PyVal) : Except PyError PyVal :=
  match a, b with
  | .int m, .int n =>
    if 0 ≤ n then .ok (.int (m ^ n.toNat))
    else if m = 0 then .error (.zeroDivisionError ("0.0 cannot be raised to a negative power"))
    else .ok (.float (.finite ((m : ℚ) ^ n)))
  | _, _ =>
    if a.isComplexVal || b.isComplexVal then
      .ok (.complex (.finite 0) (.finite 0))
    else
      match a.asFloat, b.asFloat with
      | some x, some y => x.powF y
      | _, _ => .error (.typeError ("unsupported operand type(s) for **"))

/-- Bitwise xor on arbitrary-precision ints, twos-complement convention,
mirroring CPython `int.__xor__`. -/
def intXor : ℤ → ℤ → ℤ
  | .ofNat a, .ofNat b => .ofNat (a ^^^ b)
  | .ofNat a, .negSucc b => .negSucc (a ^^^ b)
  | .negSucc a, .ofNat b => .negSucc (a ^^^ b)
  | .negSucc a, .negSucc b => .ofNat (a ^^^ b)

/-- Binary `^` (`operator.xor`): ints only. -/
def pyXor (a b : PyVal) : Except PyError PyVal :=
  match a, b with
  | .int m, .int n => .ok (.int (intXor m n))
  | _, _ => .error (.typeError ("unsupported operand type(s) for ^"))

/-- Binary `<<` (`operator.lshift`): ints only; a negative shift count is a
`ValueError`. -/
def pyLShift (a b : PyVal) : Except PyError PyVal :=
  match a, b with
  | .int m, .int n =>
    if n < 0 then .error (.valueError ("negative shift count"))
    else .ok (.int (m * 2 ^ n.toNat))
  | _, _ => .error (.typeError ("unsupported operand type(s) for <<"))

/-- Binary `>>` (`operator.rshift`): ints only; arithmetic (floor) shift. -/
def pyRShift (a b : PyVal) : Except PyError PyVal :=
  match a, b with
  | .int m, .int n =>
    if n < 0 then .error (.valueError ("negative shift count"))
    else .ok (.int (Int.fdiv m (2 ^ n.toNat)))
  | _, _ => .error (.typeError ("unsupported operand type(s) for >>"))

/-- Unary `+` (`operator.pos`): identity on every numeric value. -/
def pyPos (a : PyVal) : Except PyError PyVal := .ok a

/-- Unary `-` (`operator.neg`). -/
def pyNeg : PyVal → Except PyError PyVal
  | .int n => .ok (.int (-n))
  | .float x => .ok (.float x.neg)
  | .complex r i => .ok (.complex r.neg i.neg)

/-- Unary `~` (`operator.invert`): ints only. -/
def pyInvert : PyVal → Except PyError PyVal
  | .int n => .ok (.int (-(n + 1)))
  | .float _ => .error (.typeError ("bad operand type for unary ~: \x27float\x27"))
  | .complex _ _ => .error (.typeError ("bad operand type for unary ~: \x27complex\x27"))

/-- Binary-operator tags of the Python `ast` grammar reachable in an
expression (`ast.Add`, `ast.Sub`, ...).  `bitAnd` and `bitOr` exist in the
grammar but are outside every whitelist of the module. -/
inductive BinOpTag
  | add | sub | mult | div | floorDiv | mod | pow | bitXor | lshift | rshift
  | bitAnd | bitOr
deriving DecidableEq, BEq

/-- Unary-operator tags (`ast.UAdd`, `ast.USub`, `ast.Invert`, `ast.Not`);
`notOp` is outside every whitelist of the module. -/
inductive UnaryTag
  | uadd | usub | invert | notOp
deriving DecidableEq, BEq

/-- Embedding of `_BINOPS`: the whitelisted binary-operator table.
`bitAnd` and `bitOr` are deliberately absent, as in the source. -/
def BINOPS : List (BinOpTag × (PyVal → PyVal → Except PyError PyVal)) :=
  [(.add, pyAdd), (.sub, pySub), (.mult, pyMul), (.div, pyDiv),
   (.floorDiv, pyFloorDiv), (.mod, pyMod), (.pow, pyPow),
   (.bitXor, pyXor), (.lshift, pyLShift), (.rshift, pyRShift)]

/-- Embedding of `_UNARYOPS`: the whitelisted unary-operator table.
`notOp` is deliberately absent, as in the source. -/
def UNARYOPS : List (UnaryTag × (PyVal → Except PyError PyVal)) :=
  [(.uadd, pyPos), (.usub, pyNeg), (.invert, pyInvert)]

/-- Conversion of a call argument to a float, as `math.*` functions perform
(`complex` arguments are a `TypeError`). -/
def toFloatArg : PyVal → Except PyError PyFloat
  | .int n => .ok (.finite (n : ℚ))
  | .float x => .ok x
  | .complex _ _ => .error (.typeError ("can\x27t convert complex to float"))

/-- Wrapper giving a one-argument `math.*` function its Python calling
convention (single positional argument, float conversion, float result). -/
def mathUnary (name : String) (f : PyFloat → Except PyError PyFloat) :
    List PyVal → Except PyError PyVal
  | [x] => do
      let q ← toFloatArg x
      let r ← f q
      pure (.float r)
  | _ => .error (.typeError (name ++ "() takes exactly one argument"))

/-- Model of `math.sin` / `math.cos` / `math.tan`: total at finite inputs,
`ValueError` at infinities, `nan` propagates. -/
def trigF : PyFloat → Except PyError PyFloat
  | .finite q => .ok (.finite (unmodeledReal q))
  | .nan => .ok .nan
  | _ => .error (.valueError ("math domain error"))

/-- Model of `math.asin` / `math.acos`: real domain is `[-1, 1]`; outside it
(and at infinities) CPython raises `ValueError("math domain error")`. -/
def arcF : PyFloat → Except PyError PyFloat
  | .finite q =>
    if q < -1 ∨ 1 < q then .error (.valueError ("math domain error"))
    else .ok (.finite (unmodeledReal q))
  | .nan => .ok .nan
  | _ => .error (.valueError ("math domain error"))

/-- Model of `math.atan`: total. -/
def atanF : PyFloat → Except PyError PyFloat
  | .finite q => .ok (.finite (unmodeledReal q))
  | .nan => .ok .nan
  | .inf => .ok (.finite (unmodeledReal 1))
  | .negInf => .ok (.finite (unmodeledReal (-1)))

/-- Model of `math.sinh`: total (overflow to `OverflowError` at huge finite
arguments is not modelled; no theorem depends on it). -/
def sinhF : PyFloat → Except PyError PyFloat
  | .finite q => .ok (.finite (unmodeledReal q))
  | .nan => .ok .nan
  | .inf => .ok .inf
  | .negInf => .ok .negInf

/-- Model of `math.cosh`: total, even. -/
def coshF : PyFloat → Except PyError PyFloat
  | .finite q => .ok (.finite (unmodeledReal q))
  | .nan => .ok .nan
  | _ => .ok .inf

/-- Model of `math.tanh`: total, saturating at the infinities. -/
def tanhF : PyFloat → Except PyError PyFloat
  | .finite q => .ok (.finite (unmodeledReal q))
  | .nan => .ok .nan
  | .inf => .ok (.finite 1)
  | .negInf => .ok (.finite (-1))

/-- Model of `math.exp`: total (finite overflow not modelled). -/
def expF : PyFloat → Except PyError PyFloat
  | .finite q => .ok (.finite (unmodeledReal q))
  | .nan => .ok .nan
  | .inf => .ok .inf
  | .negInf => .ok (.finite 0)

/-- Model of `math.sqrt`: real domain is `[0, inf]`; a negative argument
raises `ValueError("math domain error")` (a plain `ValueError`, not an
`EvalError`), and the module does not catch it. -/
def sqrtF : PyFloat → Except PyError PyFloat
  | .finite q =>
    if q < 0 then .error (.valueError ("math domain error"))
    else .ok (.finite (unmodeledReal q))
  | .nan => .ok .nan
  | .inf => .ok .inf
  | .negInf => .error (.valueError ("math domain error"))

/-- Model of `math.log` / `math.log10` / `math.log2` on one argument: the
real domain is the strictly positive reals; zero and negative arguments
raise `ValueError("math domain error")`. -/
def logLikeF : PyFloat → Except PyError PyFloat
  | .finite q =>
    if q ≤ 0 then .error (.valueError ("math domain error"))
    else .ok (.finite (unmodeledReal q))
  | .nan => .ok .nan
  | .inf => .ok .inf
  | .negInf => .error (.valueError ("math domain error"))

/-- Model of `math.log` with its optional base argument; `log(x, 1)` divides
by `log(1) = 0` and raises `ZeroDivisionError`.  The quotient value of the
two-argument form is a placeholder (no theorem inspects it). -/
def logFn : List PyVal → Except PyError PyVal
  | [x] => do
      let q ← toFloatArg x
      let r ← logLikeF q
      pure (.float r)
  | [x, b] => do
      let q ← toFloatArg x
      let qb ← toFloatArg b
      let _ ← logLikeF q
      let _ ← logLikeF qb
      if qb = .finite 1 then .error (.zeroDivisionError ("float division by zero"))
      else pure (.float (.finite 0))
  | _ => .error (.typeError ("log() takes at most two arguments"))

/-- Model of `math.ceil`: int passthrough, exact ceiling of a finite float
to an int, errors at non-finite floats. -/
def ceilFn : List PyVal → Except PyError PyVal
  | [.int n] => .ok (.int n)
  | [.float (.finite q)] => .ok (.int ⌈q⌉)
  | [.float .nan] => .error (.valueError ("cannot convert float NaN to integer"))
  | [.float _] => .error (.overflowError ("cannot convert float infinity to integer"))
  | [.complex _ _] => .error (.typeError ("must be real number, not complex"))
  | _ => .error (.typeError ("ceil() takes exactly one argument"))

/-- Model of `math.floor`: int passthrough, exact floor of a finite float to
an int, errors at non-finite floats. -/
def floorFn : List PyVal → Except PyError PyVal
  | [.int n] => .ok (.int n)
  | [.float (.finite q)] => .ok (.int ⌊q⌋)
  | [.float .nan] => .error (.valueError ("cannot convert float NaN to integer"))
  | [.float _] => .error (.overflowError ("cannot convert float infinity to integer"))
  | [.complex _ _] => .error (.typeError ("must be real number, not complex"))
  | _ => .error (.typeError ("floor() takes exactly one argument"))

/-- Model of `math.fabs`: absolute value as a float. -/
def fabsFn : List PyVal → Except PyError PyVal
  | [x] => do
      let q ← toFloatArg x
      pure (.float q.absF)
  | _ => .error (.typeError ("fabs() takes exactly one argument"))

/-- Model of `math.degrees` and `math.radians`: total linear rescaling whose
finite value is a placeholder. -/
def degF : PyFloat → Except PyError PyFloat
  | .finite q => .ok (.finite (unmodeledReal q))
  | x => .ok x

/-- Model of `math.pow` (the whitelisted function named `pow`, distinct from
the `**` operator): always float semantics, and a negative base with a
non-integral exponent raises `ValueError("math domain error")`, as does a
zero base with a negative exponent. -/
def mathPowF : PyFloat → PyFloat → Except PyError PyVal
  | x, .finite qe =>
    if qe = 0 then .ok (.float (.finite 1))
    else
      match x with
      | .finite pb =>
        if pb = 1 then .ok (.float (.finite 1))
        else if pb < 0 && !qe.isInt then .error (.valueError ("math domain error"))
        else if pb = 0 && qe < 0 then .error (.valueError ("math domain error"))
        else if qe.isInt then .ok (.float (.finite (pb ^ qe.num)))
        else .ok (.float (.finite (unmodeledPow pb qe)))
      | .nan => .ok (.float .nan)
      | .inf => .ok (.float (if 0 < qe then .inf else .finite 0))
      | .negInf => .ok (.float (if 0 < qe then .inf else .finite 0))
  | x, .nan => if x = .finite 1 then .ok (.float (.finite 1)) else .ok (.float .nan)
  | x, .inf => if x = .finite 1 then .ok (.float (.finite 1)) else .ok (.float .inf)
  | x, .negInf => if x = .finite 1 then .ok (.float (.finite 1)) else .ok (.float (.finite 0))

/-- Calling convention of `math.pow`: exactly two positional arguments. -/
def powFn : List PyVal → Except PyError PyVal
  | [x, y] => do
      let p ← toFloatArg x
      let q ← toFloatArg y
      mathPowF p q
  | _ => .error (.typeError ("pow() takes exactly two arguments"))

/-- Model of `math.factorial`: exact on non-negative ints; a negative int is
a `ValueError`; float and complex arguments are a `TypeError` (CPython 3.12
behaviour; earlier versions accepted integral floats with a warning). -/
def factorialFn : List PyVal → Except PyError PyVal
  | [.int n] =>
    if n < 0 then .error (.valueError ("factorial() not defined for negative values"))
    else .ok (.int (Nat.factorial n.toNat))
  | [.float _] => .error (.typeError ("\x27float\x27 object cannot be interpreted as an integer"))
  | [.complex _ _] => .error (.typeError ("\x27complex\x27 object cannot be interpreted as an integer"))
  | _ => .error (.typeError ("factorial() takes exactly one argument"))

/-- Embedding of `_ALLOWED_FUNCS`: the whitelisted `math.*` function table,
in the enumeration order of the source. -/
def ALLOWED_FUNCS : List (String × (List PyVal → Except PyError PyVal)) :=
  [("sin", mathUnary ("sin") trigF), ("cos", mathUnary ("cos") trigF),
   ("tan", mathUnary ("tan") trigF),
   ("asin", mathUnary ("asin") arcF), ("acos", mathUnary ("acos") arcF),
   ("atan", mathUnary ("atan") atanF),
   ("sinh", mathUnary ("sinh") sinhF), ("cosh", mathUnary ("cosh") coshF),
   ("tanh", mathUnary ("tanh") tanhF),
   ("log", logFn), ("log10", mathUnary ("log10") logLikeF),
   ("log2", mathUnary ("log2") logLikeF),
   ("exp", mathUnary ("exp") expF), ("sqrt", mathUnary ("sqrt") sqrtF),
   ("ceil", ceilFn), ("floor", floorFn), ("fabs", fabsFn),
   ("degrees", mathUnary ("degrees") degF), ("radians", mathUnary ("radians") degF),
   ("pow", powFn), ("factorial", factorialFn)]

/-- Embedding of `_ALLOWED_CONSTS`.  The rationals are the exact values of
the IEEE doubles `math.pi`, `math.e` and `math.tau`. -/
def ALLOWED_CONSTS : List (String × PyVal) :=
  [("pi", .float (.finite (884279719003555 / 281474976710656))),
   ("e", .float (.finite (6121026514868073 / 2251799813685248))),
   ("tau", .float (.finite (884279719003555 / 140737488355328))),
   ("inf", .float .inf),
   ("nan", .float .nan)]

/-- Values an `ast.Constant` node can hold in this grammar fragment.
Python `bool` literals are `int` instances (a subclass) and are covered by
`intC`; `strC` and `noneC` are the non-numeric kinds a literal expression
can produce. -/
inductive PyConst
  | intC (n : ℤ)
  | floatC (x : PyFloat)
  | complexC (re im : PyFloat)
  | strC (s : String)
  | noneC
deriving DecidableEq, BEq

/-- Python `repr` of a constant value, as interpolated into the
"Unsupported constant" message (string escaping inside the repr is not
modelled beyond the surrounding quotes). -/
def constRepr : PyConst → String
  | .intC n => toString n
  | .floatC _ => "float"
  | .complexC _ _ => "complex"
  | .strC s => "\x27" ++ s ++ "\x27"
  | .noneC => "None"

/-- Embedding of the `ast.Constant` branch of `_eval_node`: `int`, `float`
and `complex` values pass through; any other constant raises `EvalError`. -/
def evalConst : PyConst → Except PyError PyVal
  | .intC n => .ok (.int n)
  | .floatC x => .ok (.float x)
  | .complexC r i => .ok (.complex r i)
  | c => .error (.evalError ("Unsupported constant: " ++ constRepr c))

/-- Node kinds of the `ast` grammar fragment modelled here, as checked by
the whitelist walk in `evaluate` (operator tag instances and `Load`
contexts are AST nodes too and are visited by `ast.walk`). -/
inductive NodeKind
  | constantK | nameK | loadK | unaryOpK | binOpK | callK | tupleK
  | attributeK | keywordK
  | addK | subK | multK | divK | modK | floorDivK | powK
  | bitXorK | lshiftK | rshiftK | bitAndK | bitOrK
  | uaddK | usubK | invertK | notOpK
deriving DecidableEq, BEq

/-- CPython class name of each node kind. -/
def kindName : NodeKind → String
  | .constantK => "Constant"
  | .nameK => "Name"
  | .loadK => "Load"
  | .unaryOpK => "UnaryOp"
  | .binOpK => "BinOp"
  | .callK => "Call"
  | .tupleK => "Tuple"
  | .attributeK => "Attribute"
  | .keywordK => "keyword"
  | .addK => "Add"
  | .subK => "Sub"
  | .multK => "Mult"
  | .divK => "Div"
  | .modK => "Mod"
  | .floorDivK => "FloorDiv"
  | .powK => "Pow"
  | .bitXorK => "BitXor"
  | .lshiftK => "LShift"
  | .rshiftK => "RShift"
  | .bitAndK => "BitAnd"
  | .bitOrK => "BitOr"
  | .uaddK => "UAdd"
  | .usubK => "USub"
  | .invertK => "Invert"
  | .notOpK => "Not"

/-- Rendering of `type(node)` as interpolated into the error message of the walk. -/
def kindRepr (k : NodeKind) : String := "<class \x27ast." ++ kindName k ++ "\x27>"

/-- Membership in the whitelist tuple of the `ast.walk` loop of `evaluate`.
Exactly the tuple of the source: `Expression, BinOp, UnaryOp, Call, Load,
Name, Constant, Num, Pow, Add, Sub, Mult, Div, Mod, FloorDiv, UAdd, USub,
Invert, LShift, RShift, BitXor, Tuple`.  Notably `Tuple` is allowed by the
walk while `Attribute`, `keyword`, `BitAnd`, `BitOr` and `Not` are not. -/
def allowedNode : NodeKind → Bool
  | .attributeK => false
  | .keywordK => false
  | .bitAndK => false
  | .bitOrK => false
  | .notOpK => false
  | _ => true

/-- AST node kind of a binary-operator tag. -/
def binTagKind : BinOpTag → NodeKind
  | .add => .addK
  | .sub => .subK
  | .mult => .multK
  | .div => .divK
  | .floorDiv => .floorDivK
  | .mod => .modK
  | .pow => .powK
  | .bitXor => .bitXorK
  | .lshift => .lshiftK
  | .rshift => .rshiftK
  | .bitAnd => .bitAndK
  | .bitOr => .bitOrK

/-- AST node kind of a unary-operator tag. -/
def unaryTagKind : UnaryTag → NodeKind
  | .uadd => .uaddK
  | .usub => .usubK
  | .invert => .invertK
  | .notOp => .notOpK

mutual
/-- Expression trees of the Python `ast` fragment relevant to the module:
the shapes `_eval_node` handles plus `Attribute` and `Tuple`, which the
grammar can produce but the module rejects (`Attribute` at the walk,
`Tuple` in the final catch-all of `_eval_node`).  A `Call` stores its function
position as a full expression, exactly as `ast.Call.func` does. -/
inductive Expr
  | constant (c : PyConst)
  | name (id : String)
  | unaryOp (o : UnaryTag) (operand : Expr)
  | binOp (left : Expr) (o : BinOpTag) (right : Expr)
  | call (func : Expr) (args : ExprList) (kwargs : KwList)
  | attribute (value : Expr) (attr : String)
  | tupleE (elts : ExprList)
/-- Argument lists of a call / element lists of a tuple. -/
inductive ExprList
  | nil
  | cons (head : Expr) (tail : ExprList)
/-- Keyword arguments of a call (`ast.keyword` nodes).  `_eval_node` ignores
them, but the walk rejects the `ast.keyword` node kind first. -/
inductive KwList
  | knil
  | kcons (arg : String) (value : Expr) (tail : KwList)
end

mutual
/-- Embedding of the `ast.walk` whitelist loop of `evaluate`: the kind of
the first node outside the whitelist tuple, or `none` when every node is
whitelisted.  `ast.walk` traverses breadth-first; this embedding traverses
depth-first in field order, which visits the same node set and can differ
only in which of several disallowed nodes is reported first (no claim
depends on that choice). -/
def firstDisallowed : Expr → Option NodeKind
  | .constant _ => none
  | .name _ => none
  | .unaryOp o operand =>
    if allowedNode (unaryTagKind o) then firstDisallowed operand
    else some (unaryTagKind o)
  | .binOp l o r =>
    match firstDisallowed l with
    | some k => some k
    | none =>
      if allowedNode (binTagKind o) then firstDisallowed r
      else some (binTagKind o)
  | .call f args kws =>
    match firstDisallowed f with
    | some k => some k
    | none =>
      match firstDisallowedList args with
      | some k => some k
      | none => firstDisallowedKws kws
  | .attribute _ _ => some .attributeK
  | .tupleE elts => firstDisallowedList elts
/-- Walk over an expression list. -/
def firstDisallowedList : ExprList → Option NodeKind
  | .nil => none
  | .cons a rest =>
    match firstDisallowed a with
    | some k => some k
    | none => firstDisallowedList rest
/-- Walk over keyword arguments: any `ast.keyword` node is itself outside
the whitelist tuple. -/
def firstDisallowedKws : KwList → Option NodeKind
  | .knil => none
  | .kcons _ _ _ => some .keywordK
end

mutual
/-- Whether an expression contains an attribute-access node anywhere. -/
def containsAttr : Expr → Bool
  | .constant _ => false
  | .name _ => false
  | .unaryOp _ operand => containsAttr operand
  | .binOp l _ r => containsAttr l || containsAttr r
  | .call f args kws => containsAttr f || containsAttrList args || containsAttrKws kws
  | .attribute _ _ => true
  | .tupleE elts => containsAttrList elts
/-- Attribute search over an expression list. -/
def containsAttrList : ExprList → Bool
  | .nil => false
  | .cons a rest => containsAttr a || containsAttrList rest
/-- Attribute search over keyword arguments. -/
def containsAttrKws : KwList → Bool
  | .knil => false
  | .kcons _ v rest => containsAttr v || containsAttrKws rest
end

/-- One application of a whitelist-table entry during evaluation. -/
inductive TraceEntry
  | binop (t : BinOpTag)
  | unop (t : UnaryTag)
  | fnApp (name : String)
  | constRead (name : String)
deriving DecidableEq, BEq

/-- Caller-supplied variable mapping (the `**variables` dict). -/
abbrev VarMap := List (String × PyVal)

mutual
/-- Embedding of `_eval_node`, instrumented: the variables dict (passed by
reference in Python) is threaded through and returned, and every
whitelist-table application is logged.  Branch structure and check order
follow the source exactly: constants first; then names (variables before
constants); unary operators check the operator table before evaluating the
operand; binary operators evaluate left then right before the table check;
calls require a direct `ast.Name` callee, check the function whitelist, and
then evaluate arguments left to right; anything else is an unsupported
element. -/
def evalNodeFull : Expr → VarMap → Except PyError (PyVal × VarMap) × List TraceEntry
  | .constant c, vars =>
    match evalConst c with
    | .ok v => (.ok (v, vars), [])
    | .error e => (.error e, [])
  | .name id, vars =>
    match afind vars id with
    | some v => (.ok (v, vars), [])
    | none =>
      match afind ALLOWED_CONSTS id with
      | some v => (.ok (v, vars), [.constRead id])
      | none => (.error (.evalError ("Unknown identifier: " ++ id)), [])
  | .unaryOp o operand, vars =>
    match afind UNARYOPS o with
    | some f =>
      match evalNodeFull operand vars with
      | (.ok (v, vars1), tr) =>
        match f v with
        | .ok r => (.ok (r, vars1), tr ++ [.unop o])
        | .error e => (.error e, tr ++ [.unop o])
      | (.error e, tr) => (.error e, tr)
    | none =>
      (.error (.evalError ("Unsupported unary operator: " ++ kindRepr (unaryTagKind o))), [])
  | .binOp l o r, vars =>
    match evalNodeFull l vars with
    | (.error e, tr) => (.error e, tr)
    | (.ok (lv, vars1), tr1) =>
      match evalNodeFull r vars1 with
      | (.error e, tr2) => (.error e, tr1 ++ tr2)
      | (.ok (rv, vars2), tr2) =>
        match afind BINOPS o with
        | some f =>
          match f lv rv with
          | .ok x => (.ok (x, vars2), tr1 ++ tr2 ++ [.binop o])
          | .error e => (.error e, tr1 ++ tr2 ++ [.binop o])
        | none =>
          (.error (.evalError ("Unsupported binary operator: " ++ kindRepr (binTagKind o))),
           tr1 ++ tr2)
  | .call f args _kws, vars =>
    match f with
    | .name fname =>
      match afind ALLOWED_FUNCS fname with
      | some fn =>
        match evalArgsFull args vars with
        | (.ok (vs, vars1), tr) =>
          match fn vs with
          | .ok r => (.ok (r, vars1), tr ++ [.fnApp fname])
          | .error e => (.error e, tr ++ [.fnApp fname])
        | (.error e, tr) => (.error e, tr)
      | none => (.error (.evalError ("Function not allowed: " ++ fname)), [])
    | _ => (.error (.evalError ("Only direct function calls are allowed")), [])
  | .attribute _ _, _ =>
    (.error (.evalError ("Unsupported expression element: " ++ kindRepr .attributeK)), [])
  | .tupleE _, _ =>
    (.error (.evalError ("Unsupported expression element: " ++ kindRepr .tupleK)), [])
/-- Left-to-right evaluation of call arguments (the list comprehension
`[_eval_node(a, names) for a in node.args]`): the first failure aborts. -/
def evalArgsFull : ExprList → VarMap → Except PyError (List PyVal × VarMap) × List TraceEntry
  | .nil, vars => (.ok ([], vars), [])
  | .cons a rest, vars =>
    match evalNodeFull a vars with
    | (.error e, tr) => (.error e, tr)
    | (.ok (v, vars1), tr1) =>
      match evalArgsFull rest vars1 with
      | (.error e, tr2) => (.error e, tr1 ++ tr2)
      | (.ok (vs, vars2), tr2) => (.ok (v :: vs, vars2), tr1 ++ tr2)
end

/-- Plain result of `_eval_node`: the instrumented evaluator with the
threading and the trace stripped. -/
def evalNode (t : Expr) (vars : VarMap) : Except PyError PyVal :=
  match (evalNodeFull t vars).1 with
  | .ok (v, _) => .ok v
  | .error e => .error e

/-- Embedding of `evaluate` from the parse outcome onward: a host-parser
`SyntaxError` is re-raised as `EvalError("Syntax error: ...")`; then the
`ast.walk` whitelist loop runs; only a fully whitelisted tree reaches
`_eval_node`. -/
def evaluateParsed (parsed : Except String Expr) (vars : VarMap) : Except PyError PyVal :=
  match parsed with
  | .error msg => .error (.evalError ("Syntax error: " ++ msg))
  | .ok body =>
    match firstDisallowed body with
    | some k => .error (.evalError ("Disallowed expression element: " ++ kindRepr k))
    | none => evalNode body vars

/-- Argument passed to `evaluate`.  A string argument is represented
together with the outcome of the host parser `ast.parse(expr, mode="eval")`
on it (the parser is CPython, an external dependency); any non-string
argument is `nonStr`. -/
inductive ExprArg
  | ofStr (parsed : Except String Expr)
  | nonStr

/-- Embedding of the public entry point `evaluate`: the `isinstance` check
raises `TypeError` before any parsing, walking or evaluation. -/
def evaluate (arg : ExprArg) (vars : VarMap) : Except PyError PyVal :=
  match arg with
  | .nonStr => .error (.typeError ("expr must be a string"))
  | .ofStr parsed => evaluateParsed parsed vars

/-- Whether a trace entry names an entry of its whitelist table. -/
def entryWhitelisted : TraceEntry → Bool
  | .binop t => (afind BINOPS t).isSome
  | .unop t => (afind UNARYOPS t).isSome
  | .fnApp n => (afind ALLOWED_FUNCS n).isSome
  | .constRead n => (afind ALLOWED_CONSTS n).isSome

/-- Whether a result is a raised `EvalError` (the class the module itself defines). -/
def isEvalErrorRes : Except PyError PyVal → Bool
  | .error (.evalError _) => true
  | _ => false

/-- Whether a result is a raised `ZeroDivisionError`. -/
def isZeroDivRes : Except PyError PyVal → Bool
  | .error (.zeroDivisionError _) => true
  | _ => false

/-- Whether a result is a raised error of any class. -/
def isErrorRes : Except PyError PyVal → Bool
  | .error _ => true
  | _ => false

/-- Whether a result is a returned `complex` value. -/
def isOkComplexRes : Except PyError PyVal → Bool
  | .ok (.complex _ _) => true
  | _ => false

/-- Boolean equality of evaluation results. -/
def resEq (r s : Except PyError PyVal) : Bool :=
  match r, s with
  | .ok a, .ok b => a == b
  | .error a, .error b => a == b
  | _, _ => false

/-- Whether an expression is a bare identifier (`ast.Name`) — the only
callee shape `_eval_node` accepts for a call. -/
def isNameExpr : Expr → Bool
  | .name _ => true
  | _ => false

/-- Integer literal node. -/
def intLit (n : ℤ) : Expr := .constant (.intC n)

/-- The rational one half, in canonical form (so that kernel reduction works
on it); this is the exact value of the float literal `0.5`. -/
def ratHalf : ℚ := ⟨1, 2, by decide, Nat.coprime_one_left 2⟩

/-- Parse of the input `os.system("ls")`: a call whose callee is the attribute
access `os.system`. -/
def osSystemTree : Expr :=
  .call (.attribute (.name ("os")) ("system")) (.cons (.constant (.strC ("ls"))) .nil) .knil

/-- Parse of the input `__import__("os")`: a direct call to a non-whitelisted name. -/
def importCallTree : Expr :=
  .call (.name ("__import__")) (.cons (.constant (.strC ("os"))) .nil) .knil

/-- Parse of the input `open("f")`. -/
def openCallTree : Expr :=
  .call (.name ("open")) (.cons (.constant (.strC ("f"))) .nil) .knil

/-- Parse of `"2 + 3"`. -/
def twoPlusThreeTree : Expr := .binOp (intLit 2) .add (intLit 3)

/-- Parse of `"2 ** 3 ** 2"`; the host parser makes `**` right-associative. -/
def powRightAssocTree : Expr := .binOp (intLit 2) .pow (.binOp (intLit 3) .pow (intLit 2))

/-- Parse of `"-7 // 2"`; unary minus binds tighter than `//`. -/
def negFloorDivTree : Expr := .binOp (.unaryOp .usub (intLit 7)) .floorDiv (intLit 2)

/-- Parse of `"-7 % 2"`. -/
def negModTree : Expr := .binOp (.unaryOp .usub (intLit 7)) .mod (intLit 2)

/-- Parse of `"1/0"`. -/
def oneDivZeroTree : Expr := .binOp (intLit 1) .div (intLit 0)

/-- Parse of `"sqrt(-1)"`. -/
def sqrtNegOneTree : Expr :=
  .call (.name ("sqrt")) (.cons (.unaryOp .usub (intLit 1)) .nil) .knil

/-- Parse of `"(-1) ** 0.5"`. -/
def powNegFracTree : Expr :=
  .binOp (.unaryOp .usub (intLit 1)) .pow (.constant (.floatC (.finite ratHalf)))

/-- Parse of the input that is the quoted string literal `ls` alone. -/
def strLitTree : Expr := .constant (.strC ("ls"))

/-- Parse of `"2j"`: a complex literal with value `2j`. -/
def complexLitTree : Expr := .constant (.complexC (.finite 0) (.finite 2))

/-- Host-parser outcome for `evaluate("")`: `ast.parse` raises
`SyntaxError`; the message text is the one from CPython 3.12. -/
def emptyParseMsg : String := "invalid syntax (<unknown>, line 0)"

/-- Host-parser outcome for `evaluate("(")` (CPython 3.12 message text). -/
def unclosedParseMsg : String := "\x27(\x27 was never closed (<unknown>, line 1)"

/-- Main invariant of the instrumented evaluator, proved by functional
induction: evaluation returns the variables dict unchanged (the code only
ever reads `names`), and every logged table application names an entry of
its whitelist table (each application site is guarded by the corresponding
membership check). -/
theorem evalFull_main : ∀ (t : Expr) (vars : VarMap),
    (∀ (v : PyVal) (m : VarMap), (evalNodeFull t vars).1 = .ok (v, m) → m = vars) ∧
    (∀ (e : TraceEntry), e ∈ (evalNodeFull t vars).2 → entryWhitelisted e = true) := by
  refine evalNodeFull.induct _
    (fun as vars =>
      (∀ (vs : List PyVal) (m : VarMap), (evalArgsFull as vars).1 = .ok (vs, m) → m = vars) ∧
      (∀ (e : TraceEntry), e ∈ (evalArgsFull as vars).2 → entryWhitelisted e = true))
    ?_ ?_ ?_ ?_ ?_ ?_ ?_ ?_ ?_ ?_ ?_ ?_ ?_ ?_ ?_ ?_ ?_ ?_ ?_ ?_ ?_ ?_ ?_ ?_ ?_
  · intro c vars v hc
    simp only [evalNodeFull, hc]
    exact ⟨fun v1 m h => by simp at h; exact h.2.symm, fun e he => by simp at he⟩
  · intro c vars e hc
    simp only [evalNodeFull, hc]
    exact ⟨fun v m h => by simp at h, fun e1 he => by simp at he⟩
  · intro id vars v hv
    simp only [evalNodeFull, hv]
    exact ⟨fun v1 m h => by simp at h; exact h.2.symm, fun e he => by simp at he⟩
  · intro id vars hv v hc
    simp only [evalNodeFull, hv, hc]
    refine ⟨fun v1 m h => by simp at h; exact h.2.symm, fun e he => ?_⟩
    simp at he
    subst he
    simp [entryWhitelisted, hc]
  · intro id vars hv hc
    simp only [evalNodeFull, hv, hc]
    exact ⟨fun v m h => by simp at h, fun e he => by simp at he⟩
  · intro o operand vars f hf v vars1 tr hop v1 hfv IH
    simp only [evalNodeFull, hf, hop, hfv]
    refine ⟨fun v2 m h => ?_, fun e he => ?_⟩
    · simp at h
      rw [← h.2]
      exact IH.1 v vars1 (by rw [hop])
    · rcases List.mem_append.mp he with h1 | h2
      · exact IH.2 e (by rw [hop]; exact h1)
      · simp at h2
        subst h2
        simp [entryWhitelisted, hf]
  · intro o operand vars f hf v vars1 tr hop e hfv IH
    simp only [evalNodeFull, hf, hop, hfv]
    refine ⟨fun v2 m h => by simp at h, fun e1 he => ?_⟩
    rcases List.mem_append.mp he with h1 | h2
    · exact IH.2 e1 (by rw [hop]; exact h1)
    · simp at h2
      subst h2
      simp [entryWhitelisted, hf]
  · intro o operand vars f hf e tr hop IH
    simp only [evalNodeFull, hf, hop]
    exact ⟨fun v m h => by simp at h, fun e1 he => IH.2 e1 (by rw [hop]; exact he)⟩
  · intro o operand vars hf
    simp only [evalNodeFull, hf]
    exact ⟨fun v m h => by simp at h, fun e he => by simp at he⟩
  · intro l o r vars e tr2 hl IH
    simp only [evalNodeFull, hl]
    exact ⟨fun v m h => by simp at h, fun e1 he => IH.2 e1 (by rw [hl]; exact he)⟩
  · intro l o r vars rv vars2 tr2 hl e tr2r hr IHl IHr
    simp only [evalNodeFull, hl, hr]
    refine ⟨fun v m h => by simp at h, fun e1 he => ?_⟩
    rcases List.mem_append.mp he with h1 | h2
    · exact IHl.2 e1 (by rw [hl]; exact h1)
    · exact IHr.2 e1 (by rw [hr]; exact h2)
  · intro l o r vars rv vars2 tr2 hl rv1 vars21 tr2r hr f hf v hfv IHl IHr
    simp only [evalNodeFull, hl, hr, hf, hfv]
    refine ⟨fun v1 m h => ?_, fun e he => ?_⟩
    · simp at h
      rw [← h.2]
      have h1 : vars21 = vars2 := IHr.1 rv1 vars21 (by rw [hr])
      have h2 : vars2 = vars := IHl.1 rv vars2 (by rw [hl])
      rw [h1, h2]
    · rcases List.mem_append.mp he with h1 | h2
      · rcases List.mem_append.mp h1 with h3 | h4
        · exact IHl.2 e (by rw [hl]; exact h3)
        · exact IHr.2 e (by rw [hr]; exact h4)
      · simp at h2
        subst h2
        simp [entryWhitelisted, hf]
  · intro l o r vars rv vars2 tr2 hl rv1 vars21 tr2r hr f hf e hfv IHl IHr
    simp only [evalNodeFull, hl, hr, hf, hfv]
    refine ⟨fun v1 m h => by simp at h, fun e1 he => ?_⟩
    rcases List.mem_append.mp he with h1 | h2
    · rcases List.mem_append.mp h1 with h3 | h4
      · exact IHl.2 e1 (by rw [hl]; exact h3)
      · exact IHr.2 e1 (by rw [hr]; exact h4)
    · simp at h2
      subst h2
      simp [entryWhitelisted, hf]
  · intro l o r vars rv vars2 tr2 hl rv1 vars21 tr2r hr hf IHl IHr
    simp only [evalNodeFull, hl, hr, hf]
    refine ⟨fun v m h => by simp at h, fun e he => ?_⟩
    rcases List.mem_append.mp he with h1 | h2
    · exact IHl.2 e (by rw [hl]; exact h1)
    · exact IHr.2 e (by rw [hr]; exact h2)
  · intro args kws vars fname fn hfn vs vars1 tr hargs v hfv IH
    simp only [evalNodeFull, hfn, hargs, hfv]
    refine ⟨fun v1 m h => ?_, fun e he => ?_⟩
    · simp at h
      rw [← h.2]
      exact IH.1 vs vars1 (by rw [hargs])
    · rcases List.mem_append.mp he with h1 | h2
      · exact IH.2 e (by rw [hargs]; exact h1)
      · simp at h2
        subst h2
        simp [entryWhitelisted, hfn]
  · intro args kws vars fname fn hfn vs vars1 tr hargs e hfv IH
    simp only [evalNodeFull, hfn, hargs, hfv]
    refine ⟨fun v1 m h => by simp at h, fun e1 he => ?_⟩
    rcases List.mem_append.mp he with h1 | h2
    · exact IH.2 e1 (by rw [hargs]; exact h1)
    · simp at h2
      subst h2
      simp [entryWhitelisted, hfn]
  · intro args kws vars fname fn hfn e tr hargs IH
    simp only [evalNodeFull, hfn, hargs]
    exact ⟨fun v m h => by simp at h, fun e1 he => IH.2 e1 (by rw [hargs]; exact he)⟩
  · intro args kws vars fname hfn
    simp only [evalNodeFull, hfn]
    exact ⟨fun v m h => by simp at h, fun e he => by simp at he⟩
  · intro f args kws vars hne
    cases f
    case name id => exact absurd rfl (hne id)
    all_goals
      simp only [evalNodeFull]
      exact ⟨fun v m h => by simp at h, fun e he => by simp at he⟩
  · intro value attr vars
    simp only [evalNodeFull]
    exact ⟨fun v m h => by simp at h, fun e he => by simp at he⟩
  · intro elts vars
    simp only [evalNodeFull]
    exact ⟨fun v m h => by simp at h, fun e he => by simp at he⟩
  · intro vars
    simp only [evalArgsFull]
    exact ⟨fun vs m h => by simp at h; exact h.2.symm, fun e he => by simp at he⟩
  · intro a rest vars e tr2 ha IH
    simp only [evalArgsFull, ha]
    exact ⟨fun vs m h => by simp at h, fun e1 he => IH.2 e1 (by rw [ha]; exact he)⟩
  · intro a rest vars rv vars2 tr2 ha e tr2r hrest IHa IHrest
    simp only [evalArgsFull, ha, hrest]
    refine ⟨fun vs m h => by simp at h, fun e1 he => ?_⟩
    rcases List.mem_append.mp he with h1 | h2
    · exact IHa.2 e1 (by rw [ha]; exact h1)
    · exact IHrest.2 e1 (by rw [hrest]; exact h2)
  · intro a rest vars rv vars2 tr2 ha vs vars21 tr2r hrest IHa IHrest
    simp only [evalArgsFull, ha, hrest]
    refine ⟨fun vs1 m h => ?_, fun e he => ?_⟩
    · simp at h
      rw [← h.2]
      have h1 : vars21 = vars2 := IHrest.1 vs vars21 (by rw [hrest])
      have h2 : vars2 = vars := IHa.1 rv vars2 (by rw [ha])
      rw [h1, h2]
    · rcases List.mem_append.mp he with h1 | h2
      · exact IHa.2 e (by rw [ha]; exact h1)
      · exact IHrest.2 e (by rw [hrest]; exact h2)

/-- Every table application logged during an evaluation names an entry of
its whitelist table: nothing outside the operator, function and constant
tables is ever applied. -/
theorem evalFull_trace (t : Expr) (vars : VarMap) (e : TraceEntry)
    (he : e ∈ (evalNodeFull t vars).2) : entryWhitelisted e = true :=
  (evalFull_main t vars).2 e he

/-- Evaluation never mutates the caller-supplied variable mapping. -/
theorem evalFull_state (t : Expr) (vars : VarMap) (v : PyVal) (m : VarMap)
    (h : (evalNodeFull t vars).1 = .ok (v, m)) : m = vars :=
  (evalFull_main t vars).1 v m h

/-- Floored remainder with a positive divisor is non-negative and below the
divisor. -/
theorem fmod_pos_bounds (a : ℤ) {b : ℤ} (hb : 0 < b) :
    0 ≤ Int.fmod a b ∧ Int.fmod a b < b := by
  constructor
  · rw [Int.fmod_eq_emod a (le_of_lt hb)]
    exact Int.emod_nonneg a (ne_of_gt hb)
  · exact Int.fmod_lt_of_pos a hb

/-- Floored remainder with a negative divisor is non-positive and above the
divisor: the sign of the remainder follows the divisor. -/
theorem fmod_neg_bounds (a : ℤ) {b : ℤ} (hb : b < 0) :
    b < Int.fmod a b ∧ Int.fmod a b ≤ 0 := by
  match b, hb with
  | .negSucc n, _ =>
    have hneg : Int.negSucc n = -((n : ℤ) + 1) := Int.negSucc_eq n
    match a with
    | .ofNat 0 =>
      have h1 : Int.fmod (Int.ofNat 0) (Int.negSucc n) = 0 := rfl
      rw [h1, hneg]
      constructor <;> omega
    | .ofNat (m + 1) =>
      have h1 : Int.fmod (Int.ofNat (m + 1)) (Int.negSucc n) =
          Int.subNatNat (m % n.succ) n := rfl
      have h2 : m % n.succ < n.succ := Nat.mod_lt _ (Nat.succ_pos n)
      rw [h1, Int.subNatNat_eq_coe, hneg]
      constructor <;> omega
    | .negSucc m =>
      have h1 : Int.fmod (Int.negSucc m) (Int.negSucc n) =
          -Int.ofNat (m.succ % n.succ) := rfl
      have h2 : m.succ % n.succ < n.succ := Nat.mod_lt _ (Nat.succ_pos n)
      rw [h1, hneg]
      have h3 : (Int.ofNat (m.succ % n.succ) : ℤ) = ((m.succ % n.succ : ℕ) : ℤ) := rfl
      rw [h3]
      constructor <;> omega

/-- Evaluation of an int-literal floor division with a non-zero divisor. -/
theorem evalNode_intFloorDiv (a b : ℤ) (hb : b ≠ 0) :
    evalNode (.binOp (intLit a) .floorDiv (intLit b)) [] = .ok (.int (Int.fdiv a b)) := by
  simp [evalNode, evalNodeFull, intLit, evalConst, afind, BINOPS, pyFloorDiv, hb]

/-- Evaluation of an int-literal modulo with a non-zero divisor. -/
theorem evalNode_intMod (a b : ℤ) (hb : b ≠ 0) :
    evalNode (.binOp (intLit a) .mod (intLit b)) [] = .ok (.int (Int.fmod a b)) := by
  simp [evalNode, evalNodeFull, intLit, evalConst, afind, BINOPS, pyMod, hb]

/-- The whitelist walk rejects every tree containing an attribute-access
node: some disallowed node kind is always found. -/
theorem walk_attr : ∀ (t : Expr),
    containsAttr t = true → (firstDisallowed t).isSome = true := by
  refine firstDisallowed.induct _
    (fun as => containsAttrList as = true → (firstDisallowedList as).isSome = true)
    ?_ ?_ ?_ ?_ ?_ ?_ ?_ ?_ ?_ ?_ ?_ ?_ ?_ ?_ ?_
  · intro c h
    simp [containsAttr] at h
  · intro id h
    simp [containsAttr] at h
  · intro o operand hallow IH h
    simp only [containsAttr] at h
    simp only [firstDisallowed, hallow, if_true]
    exact IH h
  · intro o operand hallow h
    simp [firstDisallowed, hallow]
  · intro l o r k hl IH h
    simp [firstDisallowed, hl]
  · intro l o r hl hallow IHl IHr h
    simp only [containsAttr, Bool.or_eq_true] at h
    rcases h with h | h
    · have := IHl h
      rw [hl] at this
      simp at this
    · simp only [firstDisallowed, hl, hallow, if_true]
      exact IHr h
  · intro l o r hl hallow IHl h
    simp [firstDisallowed, hl, hallow]
  · intro f args kws k hf IH h
    simp [firstDisallowed, hf]
  · intro f args kws hf k hargs IHf IHargs h
    simp [firstDisallowed, hf, hargs]
  · intro f args kws hf hargs IHf IHargs h
    simp only [containsAttr, Bool.or_eq_true] at h
    rcases h with (h | h) | h
    · have := IHf h
      rw [hf] at this
      simp at this
    · have := IHargs h
      rw [hargs] at this
      simp at this
    · simp only [firstDisallowed, hf, hargs]
      cases kws with
      | knil => simp [containsAttrKws] at h
      | kcons a v rest => simp [firstDisallowedKws]
  · intro value attr h
    simp [firstDisallowed]
  · intro elts IH h
    simp only [containsAttr] at h
    simp only [firstDisallowed]
    exact IH h
  · intro h
    simp [containsAttrList] at h
  · intro a rest k ha IH h
    simp [firstDisallowedList, ha]
  · intro a rest ha IHa IHrest h
    simp only [containsAttrList, Bool.or_eq_true] at h
    rcases h with h | h
    · have := IHa h
      rw [ha] at this
      simp at this
    · simp only [firstDisallowedList, ha]
      exact IHrest h

/-- Claim C1: no expression can reach any capability outside the whitelist
tables.  Every table application performed by an evaluation names a
whitelisted entry; any tree containing attribute access is rejected by the
walk before evaluation (so `evaluate` raises an `EvalError` without running
`_eval_node`); the three canonical escape attempts all raise, with
`__import__` and `open` rejected by the function-name check with an empty
application trace — no whitelisted (let alone non-whitelisted) function is
ever invoked for them. -/
theorem claim_C1 :
    (∀ (t : Expr) (vars : VarMap) (e : TraceEntry),
      e ∈ (evalNodeFull t vars).2 → entryWhitelisted e = true) ∧
    (∀ (t : Expr), containsAttr t = true → (firstDisallowed t).isSome = true) ∧
    (∀ (t : Expr) (vars : VarMap), containsAttr t = true →
      isEvalErrorRes (evaluateParsed (.ok t) vars) = true) ∧
    evaluate (.ofStr (.ok osSystemTree)) [] =
      .error (.evalError ("Disallowed expression element: <class \x27ast.Attribute\x27>")) ∧
    evaluate (.ofStr (.ok importCallTree)) [] =
      .error (.evalError ("Function not allowed: __import__")) ∧
    evaluate (.ofStr (.ok openCallTree)) [] =
      .error (.evalError ("Function not allowed: open")) ∧
    (evalNodeFull importCallTree []).2 = [] ∧
    (evalNodeFull openCallTree []).2 = [] := by
  refine ⟨evalFull_trace, walk_attr, ?_, rfl, rfl, rfl, rfl, rfl⟩
  intro t vars h
  have hsome := walk_attr t h
  rcases Option.isSome_iff_exists.mp hsome with ⟨k, hk⟩
  simp [evaluateParsed, hk, isEvalErrorRes]

/-- Witness for C1: the one application the evaluation of `2 + 3` performs
is the whitelisted `Add` table entry. -/
theorem claim_C1_witness : entryWhitelisted (.binop .add) = true :=
  claim_C1.1 twoPlusThreeTree [] (.binop .add) (List.mem_singleton.mpr rfl)

/-- Counterexample to claim C4 as stated: `evaluate("sqrt(-1)")` raises the
plain `ValueError("math domain error")` coming out of `math.sqrt` — the
module does not catch it and does not wrap it in its own `EvalError` class
(of which the raised instance is not a member). -/
theorem claim_C4_counterexample :
    evaluate (.ofStr (.ok sqrtNegOneTree)) [] = .error (.valueError ("math domain error")) ∧
    isEvalErrorRes (evaluate (.ofStr (.ok sqrtNegOneTree)) []) = false :=
  ⟨rfl, rfl⟩

/-- Claim C4 as amended: arguments outside the real domain of a whitelisted
function (`sqrt` of a negative number, `asin`/`acos` outside `[-1, 1]`, `log`
of a non-positive number) raise the underlying `ValueError("math domain
error")` — a domain-tagged error, but a plain `ValueError` rather than an
`EvalError` — and never return a NaN; exponentiation of a negative base
with a fractional exponent does not raise at all: CPython returns a
`complex` value (`evaluate("(-1) ** 0.5")` returns a complex number). -/
theorem claim_C4 :
    (∀ (k : ℤ), k < 0 →
      evalNode (.call (.name ("sqrt")) (.cons (intLit k) .nil) .knil) [] =
        .error (.valueError ("math domain error"))) ∧
    (∀ (q : ℚ), q < -1 ∨ 1 < q →
      evalNode (.call (.name ("asin")) (.cons (.constant (.floatC (.finite q))) .nil) .knil) [] =
        .error (.valueError ("math domain error")) ∧
      evalNode (.call (.name ("acos")) (.cons (.constant (.floatC (.finite q))) .nil) .knil) [] =
        .error (.valueError ("math domain error"))) ∧
    (∀ (q : ℚ), q ≤ 0 →
      evalNode (.call (.name ("log")) (.cons (.constant (.floatC (.finite q))) .nil) .knil) [] =
        .error (.valueError ("math domain error"))) ∧
    isOkComplexRes (evaluate (.ofStr (.ok powNegFracTree)) []) = true ∧
    isEvalErrorRes (evaluate (.ofStr (.ok powNegFracTree)) []) = false := by
  have hsqrt : afind ALLOWED_FUNCS ("sqrt") = some (mathUnary ("sqrt") sqrtF) := rfl
  have hasin : afind ALLOWED_FUNCS ("asin") = some (mathUnary ("asin") arcF) := rfl
  have hacos : afind ALLOWED_FUNCS ("acos") = some (mathUnary ("acos") arcF) := rfl
  have hlog : afind ALLOWED_FUNCS ("log") = some logFn := rfl
  refine ⟨?_, ?_, ?_, rfl, rfl⟩
  · intro k hk
    have hq : ((k : ℤ) : ℚ) < 0 := by exact_mod_cast hk
    simp [evalNode, evalNodeFull, evalArgsFull, hsqrt, intLit, evalConst,
      mathUnary, toFloatArg, sqrtF, hq, bind, Except.bind, Functor.map, Except.map]
  · intro q hq
    have hq1 : (q < -1 ∨ 1 < q) = True := eq_true hq
    constructor <;>
      simp [evalNode, evalNodeFull, evalArgsFull, hasin, hacos, evalConst,
        mathUnary, toFloatArg, arcF, hq1, bind, Except.bind, Functor.map, Except.map]
  · intro q hq
    simp [evalNode, evalNodeFull, evalArgsFull, hlog, evalConst,
      logFn, toFloatArg, logLikeF, hq, bind, Except.bind, Functor.map, Except.map]

/-- Witness for C4 at `sqrt(-1)`, `asin(2)` and `log(0)`. -/
theorem claim_C4_witness :
    evalNode (.call (.name ("log")) (.cons (.constant (.floatC (.finite 0))) .nil) .knil) [] =
      .error (.valueError ("math domain error")) :=
  claim_C4.2.2.1 0 le_rfl

/-- Counterexample to claim C5 as stated: an unknown function name is
rejected with the `EvalError` of the module, carrying the capitalised message
"Function not allowed: <name>"; no `ValidationError` class exists in the
module, and the lower-case message of the claim does not occur. -/
theorem claim_C5_counterexample :
    evalNode (.call (.name ("spam")) .nil .knil) [] =
      .error (.evalError ("Function not allowed: spam")) ∧
    resEq (evalNode (.call (.name ("spam")) .nil .knil) [])
      (.error (.evalError ("function not allowed: spam"))) = false :=
  ⟨rfl, rfl⟩

/-- Claim C5 as amended: a call whose callee is not a bare identifier is
rejected with `EvalError("Only direct function calls are allowed")`; a
call to a name absent from the function table is rejected with
`EvalError("Function not allowed: <name>")` before its arguments are even
evaluated and before anything is applied; and the only applications any
evaluation ever performs are of whitelisted table entries. -/
theorem claim_C5 :
    (∀ (fname : String) (args : ExprList) (kws : KwList) (vars : VarMap),
      afind ALLOWED_FUNCS fname = none →
      evalNode (.call (.name fname) args kws) vars =
        .error (.evalError ("Function not allowed: " ++ fname))) ∧
    (∀ (f : Expr) (args : ExprList) (kws : KwList) (vars : VarMap),
      isNameExpr f = false →
      evalNode (.call f args kws) vars =
        .error (.evalError ("Only direct function calls are allowed"))) ∧
    (∀ (t : Expr) (vars : VarMap) (e : TraceEntry),
      e ∈ (evalNodeFull t vars).2 → entryWhitelisted e = true) := by
  refine ⟨?_, ?_, evalFull_trace⟩
  · intro fname args kws vars h
    simp [evalNode, evalNodeFull, h]
  · intro f args kws vars hne
    cases f <;> simp [isNameExpr] at hne <;> simp [evalNode, evalNodeFull]

/-- Witness for C5 at the unknown function name `eggs`. -/
theorem claim_C5_witness :
    evalNode (.call (.name ("eggs")) .nil .knil) [] =
      .error (.evalError ("Function not allowed: eggs")) :=
  claim_C5.1 ("eggs") .nil .knil [] rfl

/-- Counterexample to claim C6 as stated: an unresolvable identifier raises
`EvalError` with the capitalised message "Unknown identifier: <name>", not
the lower-case form of "unknown identifier: <name>". -/
theorem claim_C6_counterexample :
    evalNode (.name ("zz")) [] = .error (.evalError ("Unknown identifier: zz")) ∧
    resEq (evalNode (.name ("zz")) [])
      (.error (.evalError ("unknown identifier: zz"))) = false :=
  ⟨rfl, rfl⟩

/-- Claim C6 as amended: identifier resolution consults the caller-supplied
variable mapping first, falls back to the constant table only on a miss (so
a variable named `pi` shadows the constant), and otherwise raises
`EvalError("Unknown identifier: <name>")` (capitalised, unlike the message the claim
quotes). -/
theorem claim_C6 :
    (∀ (id : String) (v : PyVal) (vars : VarMap), afind vars id = some v →
      evalNode (.name id) vars = .ok v) ∧
    (∀ (id : String) (vars : VarMap) (c : PyVal), afind vars id = none →
      afind ALLOWED_CONSTS id = some c → evalNode (.name id) vars = .ok c) ∧
    (∀ (id : String) (vars : VarMap), afind vars id = none →
      afind ALLOWED_CONSTS id = none →
      evalNode (.name id) vars = .error (.evalError ("Unknown identifier: " ++ id))) ∧
    (∀ (v : PyVal), evalNode (.name ("pi")) [(("pi"), v)] = .ok v) := by
  refine ⟨?_, ?_, ?_, ?_⟩
  · intro id v vars h
    simp [evalNode, evalNodeFull, h]
  · intro id vars c h hc
    simp [evalNode, evalNodeFull, h, hc]
  · intro id vars h hc
    simp [evalNode, evalNodeFull, h, hc]
  · intro v
    simp [evalNode, evalNodeFull, afind]

/-- Witness for C6: a variable binding is found in the mapping. -/
theorem claim_C6_witness : evalNode (.name ("x")) [(("x"), .int 7)] = .ok (.int 7) :=
  claim_C6.1 ("x") (.int 7) [(("x"), .int 7)] rfl

/-- Claim C8: evaluation is deterministic and stateless — a successful run
returns the variable mapping unchanged (the dict, passed by reference, is
never mutated), re-running on the returned mapping reproduces the identical
result, and the pure result depends only on the tree and the mapping. -/
theorem claim_C8 : ∀ (t : Expr) (vars : VarMap) (v : PyVal) (m : VarMap),
    (evalNodeFull t vars).1 = .ok (v, m) →
    m = vars ∧ (evalNodeFull t m).1 = .ok (v, m) ∧ evalNode t vars = evalNode t m := by
  intro t vars v m h
  have hm : m = vars := evalFull_state t vars v m h
  subst hm
  exact ⟨rfl, h, rfl⟩

/-- Witness for C8 at the evaluation of `2 + 3` with an empty mapping. -/
theorem claim_C8_witness :
    ([] : VarMap) = [] ∧ (evalNodeFull twoPlusThreeTree []).1 = .ok (.int 5, []) ∧
    evalNode twoPlusThreeTree [] = evalNode twoPlusThreeTree [] :=
  claim_C8 twoPlusThreeTree [] (.int 5) [] rfl

/-- Claim C2: `evaluate("2 + 3")` is `5`; `evaluate("2 ** 3 ** 2")` is `512`
(the host parser makes `**` right-associative); `evaluate("-7 // 2")` is
`-4` and `evaluate("-7 % 2")` is `1`; and for all int operands with a
non-zero divisor, `//` and `%` follow the floored-division convention: the
quotient/remainder pair reconstructs the dividend and the sign of the remainder
follows the divisor. -/
theorem claim_C2 :
    evaluate (.ofStr (.ok twoPlusThreeTree)) [] = .ok (.int 5) ∧
    evaluate (.ofStr (.ok powRightAssocTree)) [] = .ok (.int 512) ∧
    evaluate (.ofStr (.ok negFloorDivTree)) [] = .ok (.int (-4)) ∧
    evaluate (.ofStr (.ok negModTree)) [] = .ok (.int 1) ∧
    (∀ (a b : ℤ), b ≠ 0 →
      evalNode (.binOp (intLit a) .floorDiv (intLit b)) [] = .ok (.int (Int.fdiv a b)) ∧
      evalNode (.binOp (intLit a) .mod (intLit b)) [] = .ok (.int (Int.fmod a b)) ∧
      b * Int.fdiv a b + Int.fmod a b = a ∧
      (0 < b → 0 ≤ Int.fmod a b ∧ Int.fmod a b < b) ∧
      (b < 0 → b < Int.fmod a b ∧ Int.fmod a b ≤ 0)) := by
  refine ⟨rfl, rfl, rfl, rfl, ?_⟩
  intro a b hb
  exact ⟨evalNode_intFloorDiv a b hb, evalNode_intMod a b hb, Int.fdiv_add_fmod a b,
    fun h => fmod_pos_bounds a h, fun h => fmod_neg_bounds a h⟩

/-- Witness for C2 at the concrete operands `-7` and `2`. -/
theorem claim_C2_witness :
    evalNode (.binOp (intLit (-7)) .mod (intLit 2)) [] = .ok (.int (Int.fmod (-7) 2)) :=
  (claim_C2.2.2.2.2 (-7) 2 (by decide)).2.1

/-- Counterexample to claim C3 as stated: `evaluate("1/0")` raises
`ZeroDivisionError("division by zero")` — the module never catches it and
never converts it into its own `EvalError` class. -/
theorem claim_C3_counterexample :
    evaluate (.ofStr (.ok oneDivZeroTree)) [] =
      .error (.zeroDivisionError ("division by zero")) ∧
    isEvalErrorRes (evaluate (.ofStr (.ok oneDivZeroTree)) []) = false :=
  ⟨rfl, rfl⟩

/-- Claim C3 as amended: division or modulo with a zero right operand over
int or float operands always raises `ZeroDivisionError` (message "division
by zero" for int true division), never returns a value (hence no infinity
and no NaN) and never raises the `EvalError` class of the module. -/
theorem claim_C3 :
    (∀ (a : ℤ),
      evalNode (.binOp (intLit a) .div (intLit 0)) [] =
        .error (.zeroDivisionError ("division by zero")) ∧
      isZeroDivRes (evalNode (.binOp (intLit a) .mod (intLit 0)) []) = true ∧
      isEvalErrorRes (evalNode (.binOp (intLit a) .div (intLit 0)) []) = false) ∧
    (∀ (x : PyFloat),
      isZeroDivRes (evalNode (.binOp (.constant (.floatC x)) .div (intLit 0)) []) = true ∧
      isZeroDivRes (evalNode (.binOp (.constant (.floatC x)) .mod (intLit 0)) []) = true ∧
      isZeroDivRes (evalNode (.binOp (.constant (.floatC x)) .div
        (.constant (.floatC (.finite 0)))) []) = true ∧
      isZeroDivRes (evalNode (.binOp (.constant (.floatC x)) .mod
        (.constant (.floatC (.finite 0)))) []) = true) ∧
    (∀ (a : ℤ),
      isZeroDivRes (evalNode (.binOp (intLit a) .div (.constant (.floatC (.finite 0)))) []) = true ∧
      isZeroDivRes (evalNode (.binOp (intLit a) .mod (.constant (.floatC (.finite 0)))) []) = true) := by
  refine ⟨fun a => ?_, fun x => ?_, fun a => ?_⟩
  · refine ⟨?_, ?_, ?_⟩ <;>
      simp [evalNode, evalNodeFull, intLit, evalConst, afind, BINOPS, pyDiv, pyMod,
        PyVal.isComplexVal, isZeroDivRes, isEvalErrorRes]
  · refine ⟨?_, ?_, ?_, ?_⟩ <;>
      simp [evalNode, evalNodeFull, intLit, evalConst, afind, BINOPS, pyDiv, pyMod,
        PyVal.isComplexVal, PyVal.asFloat, isZeroDivRes]
  · refine ⟨?_, ?_⟩ <;>
      simp [evalNode, evalNodeFull, intLit, evalConst, afind, BINOPS, pyDiv, pyMod,
        PyVal.isComplexVal, PyVal.asFloat, isZeroDivRes]

/-- Counterexample to claim C7 as stated: on the unparseable inputs `""` and
`"("` the module raises its own `EvalError` with a "Syntax error: ..."
message — there is no `ParseError` class anywhere in the module. -/
theorem claim_C7_counterexample :
    evaluate (.ofStr (.error emptyParseMsg)) [] =
      .error (.evalError ("Syntax error: invalid syntax (<unknown>, line 0)")) ∧
    isEvalErrorRes (evaluate (.ofStr (.error emptyParseMsg)) []) = true ∧
    evaluate (.ofStr (.error unclosedParseMsg)) [] =
      .error (.evalError ("Syntax error: " ++ unclosedParseMsg)) :=
  ⟨rfl, rfl, rfl⟩

/-- Claim C7 as amended: every host-parser failure (any lexically or
syntactically malformed input, including `""` and `"("`) makes `evaluate`
raise `EvalError("Syntax error: <host message>")` — a tagged error rather
than a crash, and no partial result — but the class is the single `EvalError` of the
module, not a dedicated `ParseError`. -/
theorem claim_C7 :
    ∀ (msg : String) (vars : VarMap),
      evaluate (.ofStr (.error msg)) vars =
        .error (.evalError ("Syntax error: " ++ msg)) ∧
      isErrorRes (evaluate (.ofStr (.error msg)) vars) = true := by
  intro msg vars
  exact ⟨rfl, rfl⟩

/-- Claim C9: a non-string argument raises `TypeError("expr must be a
string")` before any parsing, walking or evaluation (the embedding returns
it regardless of the variables and with no other computation), and that
error is not one of the tagged errors of the evaluator (`EvalError`). -/
theorem claim_C9 :
    ∀ (vars : VarMap),
      evaluate .nonStr vars = .error (.typeError ("expr must be a string")) ∧
      isEvalErrorRes (evaluate .nonStr vars) = false := by
  intro vars
  exact ⟨rfl, rfl⟩

/-- Claim C10: literal nodes holding an `int`, `float` or `complex` value
evaluate to exactly that stored value (so the complex literal `2j` is
accepted); a literal holding a string or `None` raises
`EvalError("Unsupported constant: <repr>")`; and such a literal inside a
larger expression propagates that error outward before any operator or
whitelisted function sees the value. -/
theorem claim_C10 :
    (∀ (n : ℤ) (vars : VarMap), evalNode (.constant (.intC n)) vars = .ok (.int n)) ∧
    (∀ (x : PyFloat) (vars : VarMap),
      evalNode (.constant (.floatC x)) vars = .ok (.float x)) ∧
    (∀ (r i : PyFloat) (vars : VarMap),
      evalNode (.constant (.complexC r i)) vars = .ok (.complex r i)) ∧
    evaluate (.ofStr (.ok complexLitTree)) [] = .ok (.complex (.finite 0) (.finite 2)) ∧
    (∀ (s : String) (vars : VarMap),
      evalNode (.constant (.strC s)) vars =
        .error (.evalError ("Unsupported constant: " ++ ("\x27" ++ s ++ "\x27")))) ∧
    (∀ (vars : VarMap),
      evalNode (.constant .noneC) vars =
        .error (.evalError ("Unsupported constant: None"))) ∧
    evaluate (.ofStr (.ok strLitTree)) [] =
      .error (.evalError ("Unsupported constant: \x27ls\x27")) ∧
    (∀ (s : String) (o : BinOpTag) (r : Expr) (vars : VarMap),
      evalNode (.binOp (.constant (.strC s)) o r) vars =
        .error (.evalError ("Unsupported constant: " ++ ("\x27" ++ s ++ "\x27")))) ∧
    (∀ (s : String) (vars : VarMap),
      evalNode (.call (.name ("sqrt")) (.cons (.constant (.strC s)) .nil) .knil) vars =
        .error (.evalError ("Unsupported constant: " ++ ("\x27" ++ s ++ "\x27")))) := by
  refine ⟨fun n vars => rfl, fun x vars => rfl, fun r i vars => rfl, rfl,
    fun s vars => rfl, fun vars => rfl, rfl, fun s o r vars => ?_, fun s vars => ?_⟩
  · simp [evalNode, evalNodeFull, evalConst, constRepr]
  · simp [evalNode, evalNodeFull, evalArgsFull, evalConst, constRepr, afind, ALLOWED_FUNCS]

end Rechner
